import Mathlib

/-!
# Verification of the PW_BuildSeries driver core

Shallow embedding of the repository's two core components and proofs about
them:

* `ButtonHandler` (src/src/hal/ButtonHandler/ButtonHandler.h): a multi-channel
  debounced button reader with short/long press classification.
* `HBridgeMotor` (src/examples/#3_motorDriver/hal/HBridgeMotor/HBridgeMotor.cpp):
  a dual-PWM motor driver with a timer-scheduled soft-brake dither.

Machine `uint32_t` time arithmetic is modelled with explicit `% 2 ^ 32`
subtraction.  The driver's `float`/`double` duty and duration arithmetic is
modelled exactly over `ℚ`; `static_cast<int64_t>` of the (non-negative)
duration values is `Int.floor`.  The asynchronous one-shot timer is modelled
as an explicit `Option Int` field holding the armed delay, and the timer
callback as a guarded step that can only fire while a delay is armed.
The mutually recursive `setFreewheel`/`startSoftBrake` pair is embedded with
explicit fuel, returning `none` when the fuel runs out.
-/

set_option autoImplicit false

attribute [local semireducible] Rat.mul Rat.inv Rat.add Rat.sub

namespace MathFns

/-- Embedding of `MathFns::clamp` (src/src/utils/MathFns/MathFns.h):
`(value < low) ? low : (value > high) ? high : value`. -/
def clamp {α : Type} [LinearOrder α] (value low high : α) : α :=
  if value < low then low
  else if high < value then high
  else value

end MathFns

/-! ## Button handler embedding (src/src/hal/ButtonHandler/ButtonHandler.h) -/

/-- Embedding of `ButtonPressType` (src/src/hal/IButtonHandler.h). -/
inductive ButtonPressType where
  | None
  | Short
  | Long
deriving DecidableEq

/-- Embedding of `ButtonTimingConfig` (IButtonHandler.h): debounce and press
duration thresholds in milliseconds (defaults 30/200/1000). -/
structure ButtonTimingConfig where
  debounce_ms : Nat
  short_press_ms : Nat
  long_press_ms : Nat
deriving DecidableEq

/-- `uint32_t` subtraction `a - b` modulo `2 ^ 32`, as computed by
`now - last_state_change_[i]` and `now - press_start_[i]` in the source. -/
def sub32 (a b : Nat) : Nat := (a + (2 ^ 32 - b % 2 ^ 32)) % 2 ^ 32

/-- Per-channel state of `ButtonHandler<N>`: the debounced state, the last
accepted transition timestamp, the press start timestamp and the pending
(consume-once) event. -/
structure ButtonChannel where
  last_state : Bool
  last_state_change : Nat
  press_start : Nat
  event : ButtonPressType
deriving DecidableEq

/-- The release-classification cascade of `ButtonHandler::update`
(ButtonHandler.h lines 89-95): `Long` if `duration >= long_press_ms`, else
`Short` if `duration >= short_press_ms`, else `None`. -/
def classifyPress (t : ButtonTimingConfig) (duration : Nat) : ButtonPressType :=
  if t.long_press_ms ≤ duration then ButtonPressType.Long
  else if t.short_press_ms ≤ duration then ButtonPressType.Short
  else ButtonPressType.None

/-- One channel's step of `ButtonHandler::update` (ButtonHandler.h lines
71-100) at time `now` with raw sample `pressed`: accept a differing raw state
only when `now - last_state_change >= debounce_ms`; on an accepted press
record `press_start`; on an accepted release classify the press duration into
`event` and reset `press_start`. -/
def updateChannel (t : ButtonTimingConfig) (now : Nat) (pressed : Bool)
    (c : ButtonChannel) : ButtonChannel :=
  if pressed ≠ c.last_state then
    if t.debounce_ms ≤ sub32 now c.last_state_change then
      if pressed then
        { c with last_state_change := now, last_state := pressed,
                 press_start := now }
      else
        { c with last_state_change := now, last_state := pressed,
                 event := classifyPress t (sub32 now c.press_start),
                 press_start := 0 }
    else c
  else c

/-- Embedding of `ButtonHandler::getPressType` (ButtonHandler.h lines
121-128): out-of-range ids return `None` and touch nothing; otherwise the
pending event is returned and overwritten with `None`.  The bank of `N`
channels is a list; the pair is (returned event, bank after the call). -/
def getPressType (buttonId : Nat) (bank : List ButtonChannel) :
    ButtonPressType × List ButtonChannel :=
  if h : buttonId < bank.length then
    (bank[buttonId].event,
     bank.set buttonId { bank[buttonId] with event := ButtonPressType.None })
  else
    (ButtonPressType.None, bank)

/-- Embedding of `ButtonHandler::isPressed` (ButtonHandler.h lines 109-114). -/
def isPressed (buttonId : Nat) (bank : List ButtonChannel) : Bool :=
  if h : buttonId < bank.length then bank[buttonId].last_state else false

/-! ## Motor driver embedding
(src/examples/#3_motorDriver/hal/HBridgeMotor/HBridgeMotor.h / .cpp,
src/src/hal/IMotorDriver.h) -/

/-- Embedding of `FreewheelMode` (IMotorDriver.h). -/
inductive FreewheelMode where
  | HiZ
  | HiZ_Awake
  | DitherBrake
deriving DecidableEq

/-- Embedding of `Dir` (IMotorDriver.h). -/
inductive Dir where
  | CW
  | CCW
deriving DecidableEq

/-- Embedding of `HBridgeMotor::BrakePhase` (HBridgeMotor.h). -/
inductive BrakePhase where
  | Coast
  | Brake
deriving DecidableEq

/-- Embedding of `MotorBehaviorConfig` (IMotorDriver.h); defaults are
`HiZ`, 300 Hz, dither 30. -/
structure MotorBehaviorConfig where
  freewheel_mode : FreewheelMode := FreewheelMode.HiZ
  soft_brake_hz : Int := 300
  dither_pwm : Nat := 30
deriving DecidableEq

/-- `kBitRes_ = 10` (HBridgeMotor.h). -/
def kBitRes : Nat := 10

/-- `kPwmMaxInput_ = (1 << kBitRes_) - 1 = 1023` (HBridgeMotor.h). -/
def kPwmMaxInput : Int := 2 ^ kBitRes - 1

/-- `kMinPhaseUs = 1500` (HBridgeMotor.h). -/
def kMinPhaseUs : Int := 1500

/-- `kMicrosPerSec = 1e6` (HBridgeMotor.h), exact over `ℚ`. -/
def kMicrosPerSec : ℚ := 1000000

/-- `percent_per_count_ = 100.0f / kPwmMaxInput_` (HBridgeMotor.h),
exact over `ℚ`. -/
def percentPerCount : ℚ := 100 / (kPwmMaxInput : ℚ)

/-- `kDefaultBrake_ = 50` (HBridgeMotor.h). -/
def kDefaultBrake : Nat := 50

/-- Runtime state of one `HBridgeMotor` instance.  `dutyA`/`dutyB` are the
duty percentages last written to the two MCPWM operators by `writeAB`;
`timer_armed` models the one-shot `esp_timer`: `some d` when a callback is
armed to fire after `d` microseconds, `none` when no callback is pending. -/
structure MotorState where
  use_en : Bool := false
  en_state : Bool := false
  dutyA : ℚ := 0
  dutyB : ℚ := 0
  soft_brake_pwm : Nat := kDefaultBrake
  beh : MotorBehaviorConfig := {}
  soft_active : Bool := false
  soft_phase : BrakePhase := BrakePhase.Coast
  soft_level : ℚ := 0
  soft_hz : Int := 300
  soft_us_brake : Int := 0
  soft_us_coast : Int := 0
  timer_armed : Option Int := none
deriving DecidableEq

/-- The member-initializer state of a fresh `HBridgeMotor` (HBridgeMotor.h). -/
def initMotorState : MotorState := {}

/-- Embedding of `HBridgeMotor::setEnable` (HBridgeMotor.cpp lines 254-261):
only touches the pin state when an enable pin is used and the state differs. -/
def setEnable (b : Bool) (s : MotorState) : MotorState :=
  if s.use_en ∧ s.en_state ≠ b then { s with en_state := b } else s

/-- Embedding of `HBridgeMotor::writeAB` (HBridgeMotor.cpp lines 264-268). -/
def writeAB (a b : ℚ) (s : MotorState) : MotorState :=
  { s with dutyA := a, dutyB := b }

/-- Embedding of `HBridgeMotor::stopSoftBrake` (HBridgeMotor.cpp lines
243-251): when the cycle is active, cancel the pending one-shot and clear the
active flag; otherwise do nothing. -/
def stopSoftBrake (s : MotorState) : MotorState :=
  if s.soft_active then { s with timer_armed := none, soft_active := false }
  else s

/-- Embedding of `HBridgeMotor::applyPhase` (HBridgeMotor.cpp lines 176-189):
`Brake` shorts both outputs at 100% with enable asserted; `Coast` zeroes both
outputs and deliberately leaves the enable line alone. -/
def applyPhase (p : BrakePhase) (s : MotorState) : MotorState :=
  match p with
  | BrakePhase.Brake => writeAB 100 100 (setEnable true s)
  | BrakePhase.Coast => writeAB 0 0 s

/-- Embedding of `HBridgeMotor::scheduleNextPhase` (HBridgeMotor.cpp lines
192-205): no-op when the cycle is inactive; otherwise arm the one-shot for
the current phase's duration with the `kMinPhaseUs` guardrail applied. -/
def scheduleNextPhase (s : MotorState) : MotorState :=
  if s.soft_active = false then s
  else
    let dur_us := match s.soft_phase with
      | BrakePhase.Brake => s.soft_us_brake
      | BrakePhase.Coast => s.soft_us_coast
    let use_us := if dur_us < kMinPhaseUs then kMinPhaseUs else dur_us
    { s with timer_armed := some use_us }

/-- `soft_level_` as computed by `recomputeSoftDurations` (HBridgeMotor.cpp
lines 273-274): `clamp(pwm / kPwmMaxInput_, 0, 1)`. -/
def softLevelOf (pwm : Nat) : ℚ :=
  MathFns.clamp ((pwm : ℚ) / (kPwmMaxInput : ℚ)) 0 1

/-- One dither period `kMicrosPerSec / soft_hz_` in microseconds
(HBridgeMotor.cpp line 276). -/
def periodUsOf (hz : Int) : ℚ := kMicrosPerSec / (hz : ℚ)

/-- `soft_us_brake_ = int64(period_us * level)` (HBridgeMotor.cpp line 277);
the cast truncates, which is `Int.floor` on the non-negative values that
arise here. -/
def rawBrakeUsOf (hz : Int) (level : ℚ) : Int :=
  Int.floor (periodUsOf hz * level)

/-- `soft_us_coast_ = int64(period_us) - soft_us_brake_`
(HBridgeMotor.cpp line 278). -/
def rawCoastUsOf (hz : Int) (level : ℚ) : Int :=
  Int.floor (periodUsOf hz) - rawBrakeUsOf hz level

/-- The minimum-segment guardrail of `recomputeSoftDurations`
(HBridgeMotor.cpp lines 281-284): raise a positive sub-floor duration to
`kMinPhaseUs`. -/
def floorPhase (d : Int) : Int :=
  if d < kMinPhaseUs ∧ 0 < d then kMinPhaseUs else d

/-- The floored brake duration computed by `recomputeSoftDurations` for a
given frequency and requested duty. -/
def brakeUs (hz : Int) (pwm : Nat) : Int :=
  floorPhase (rawBrakeUsOf hz (softLevelOf pwm))

/-- The floored coast duration computed by `recomputeSoftDurations` for a
given frequency and requested duty. -/
def coastUs (hz : Int) (pwm : Nat) : Int :=
  floorPhase (rawCoastUsOf hz (softLevelOf pwm))

/-- Embedding of `HBridgeMotor::recomputeSoftDurations` (HBridgeMotor.cpp
lines 271-285). -/
def recomputeSoftDurations (s : MotorState) : MotorState :=
  { s with soft_level := softLevelOf s.soft_brake_pwm,
           soft_us_brake := brakeUs s.soft_hz s.soft_brake_pwm,
           soft_us_coast := coastUs s.soft_hz s.soft_brake_pwm }

/-- The duration recomputation inside `startSoftBrake` (HBridgeMotor.cpp
lines 229-231), which — unlike `recomputeSoftDurations` — does not apply the
`kMinPhaseUs` floor to the stored values (the floor is applied at scheduling
time by `scheduleNextPhase`). -/
def rawRecomputeDurations (s : MotorState) : MotorState :=
  { s with soft_us_brake := rawBrakeUsOf s.soft_hz s.soft_level,
           soft_us_coast := rawCoastUsOf s.soft_hz s.soft_level }

/-- Embedding of `HBridgeMotor::setSoftBrakePWM` (HBridgeMotor.cpp lines
129-137): clamp and store the requested duty; when the dither cycle is
active, recompute the phase durations in place.  It does not stop, start or
reroute the cycle. -/
def setSoftBrakePWMstate (pwm : Nat) (s : MotorState) : MotorState :=
  let s1 := { s with
    soft_brake_pwm := (MathFns.clamp (pwm : Int) 0 kPwmMaxInput).toNat }
  if s1.soft_active then recomputeSoftDurations s1 else s1

mutual

/-- Embedding of `HBridgeMotor::startSoftBrake` (HBridgeMotor.cpp lines
208-240) with explicit fuel for the mutual recursion with `setFreewheel`;
`none` means the fuel ran out before reaching a base case. -/
def startSoftBrakeF : Nat → MotorState → Option MotorState
  | 0, _ => none
  | n + 1, s =>
    let s1 := recomputeSoftDurations s
    if s1.soft_level ≤ 1 / 1000 then
      setFreewheelF n (stopSoftBrake s1)
    else if (999 : ℚ) / 1000 ≤ s1.soft_level then
      some (writeAB 100 100 (setEnable true (stopSoftBrake s1)))
    else
      let s2 := rawRecomputeDurations s1
      if s2.soft_active then some s2
      else
        let s3 := { s2 with soft_phase := BrakePhase.Coast,
                            soft_active := true }
        some (scheduleNextPhase (applyPhase BrakePhase.Coast s3))

/-- Embedding of `HBridgeMotor::setFreewheel` (HBridgeMotor.cpp lines
100-118) with explicit fuel for the mutual recursion with `startSoftBrake`. -/
def setFreewheelF : Nat → MotorState → Option MotorState
  | 0, _ => none
  | n + 1, s =>
    let s1 := stopSoftBrake s
    match s1.beh.freewheel_mode with
    | FreewheelMode.HiZ => some (writeAB 0 0 (setEnable false s1))
    | FreewheelMode.HiZ_Awake => some (writeAB 0 0 (setEnable true s1))
    | FreewheelMode.DitherBrake =>
        startSoftBrakeF n (setSoftBrakePWMstate s1.beh.dither_pwm s1)

end

/-- Embedding of `HBridgeMotor::setSpeed` (HBridgeMotor.cpp lines 140-164):
clamp to `[0, kPwmMaxInput_]`; a clamped zero routes to `startSoftBrake`,
otherwise stop any dither, assert enable and drive exactly one output at
`clamped * percent_per_count_` percent. -/
def setSpeedF (n : Nat) (speed : Int) (dir : Dir) (s : MotorState) :
    Option MotorState :=
  let clamped := MathFns.clamp speed 0 kPwmMaxInput
  if clamped = 0 then
    startSoftBrakeF n s
  else
    let s1 := setEnable true (stopSoftBrake s)
    let duty : ℚ := (clamped : ℚ) * percentPerCount
    match dir with
    | Dir.CW => some (writeAB duty 0 s1)
    | Dir.CCW => some (writeAB 0 duty s1)

/-- Embedding of `HBridgeMotor::setHardBrake` (HBridgeMotor.cpp lines
121-126). -/
def setHardBrakeState (s : MotorState) : MotorState :=
  writeAB 100 100 (setEnable true (stopSoftBrake s))

/-- Embedding of `HBridgeMotor::softBrakeISR` (HBridgeMotor.cpp lines
167-173): flip the phase, apply it and arm the next one-shot. -/
def softBrakeISRState (s : MotorState) : MotorState :=
  let p := match s.soft_phase with
    | BrakePhase.Coast => BrakePhase.Brake
    | BrakePhase.Brake => BrakePhase.Coast
  scheduleNextPhase (applyPhase p { s with soft_phase := p })

/-- The timer-callback step: a phase flip can only occur while a one-shot is
armed; firing consumes the armed delay and runs `softBrakeISR`.  `none` means
no callback can fire in this state. -/
def softBrakeFire (s : MotorState) : Option MotorState :=
  match s.timer_armed with
  | none => none
  | some _ => some (softBrakeISRState { s with timer_armed := none })

/-- The timer/flag coupling every reachable `HBridgeMotor` state satisfies: a
one-shot is armed only while the dither cycle is active (`startSoftBrake`
arms only after setting the flag, and `stopSoftBrake` cancels the one-shot
exactly when it clears the flag). -/
def TimerInv (s : MotorState) : Prop :=
  s.timer_armed ≠ none → s.soft_active = true

/-- The delay `scheduleNextPhase` arms for the coast phase of state `s`:
the stored coast duration with the `kMinPhaseUs` guardrail applied. -/
def schedCoastVal (s : MotorState) : Int :=
  if s.soft_us_coast < kMinPhaseUs then kMinPhaseUs else s.soft_us_coast

/-- Embedding of the two-argument `HBridgeMotor::setup` (HBridgeMotor.cpp
lines 43-97), restricted to the fields of the abstract state: the supplied
behavior profile is stored verbatim, `use_en_` is auto-detected from the
enable pin, MCPWM starts with both compare registers at zero, and a present
enable pin is driven high. -/
def setupWithBehavior (en_pin : Int) (beh : MotorBehaviorConfig)
    (s : MotorState) : MotorState :=
  let use_en := decide (0 ≤ en_pin)
  let s1 := { s with beh := beh, soft_hz := beh.soft_brake_hz,
                     use_en := use_en, dutyA := 0, dutyB := 0 }
  if use_en then setEnable true s1 else s1

/-- The default behavior profile `MotorBehaviorConfig{}` (IMotorDriver.h). -/
def defaultBehavior : MotorBehaviorConfig := {}

/-- Embedding of the one-argument `HBridgeMotor::setup` (HBridgeMotor.cpp
lines 29-40): build the default profile, remap `HiZ` to `HiZ_Awake` when no
enable pin is configured, and delegate to the two-argument overload. -/
def setupDefault (en_pin : Int) (s : MotorState) : MotorState :=
  let d := defaultBehavior
  let d1 := if en_pin < 0 ∧ d.freewheel_mode = FreewheelMode.HiZ then
      { d with freewheel_mode := FreewheelMode.HiZ_Awake }
    else d
  setupWithBehavior en_pin d1 s

/-! ## Remaining definitions used by the motor theorems -/

/-- The duty percentage `setSpeed` writes to the driven output for a given
raw speed input: `clamp(speed, 0, max) * percent_per_count_`. -/
def driveDuty (speed : Int) : ℚ :=
  ((MathFns.clamp speed 0 kPwmMaxInput : Int) : ℚ) * percentPerCount

/-- What holds of the state `r` produced by a terminating `startSoftBrake`
call on `s`: either the dither cycle ends up active (with the pre-existing
outputs and pending one-shot if it was already running, or freshly engaged
in the coast phase with a fresh one-shot armed for the floored coast
duration), or a direct hard-brake was applied, or the call fell through to a
`HiZ`/`HiZ_Awake` freewheel with both outputs zero, nothing armed and the
enable line per the configured sub-mode. -/
def SBOutcome (s r : MotorState) : Prop :=
  r.beh = s.beh ∧ r.use_en = s.use_en ∧
  ((r.soft_active = true ∧
     ((s.soft_active = true ∧ r.timer_armed = s.timer_armed ∧
       r.dutyA = s.dutyA ∧ r.dutyB = s.dutyB) ∨
      (r.dutyA = 0 ∧ r.dutyB = 0 ∧ r.soft_phase = BrakePhase.Coast ∧
       r.timer_armed = some (schedCoastVal r)))) ∨
   (r.dutyA = 100 ∧ r.dutyB = 100 ∧ r.soft_active = false ∧
    r.timer_armed = none ∧ (s.use_en = true → r.en_state = true)) ∨
   (r.dutyA = 0 ∧ r.dutyB = 0 ∧ r.soft_active = false ∧
    r.timer_armed = none ∧
    (s.use_en = true →
      (r.en_state = true ↔ s.beh.freewheel_mode = FreewheelMode.HiZ_Awake))))

/-- What holds of the state `r` produced by a terminating `setFreewheel`
call on `s`: as `SBOutcome`, except that the active-dither case is always a
fresh engagement because `setFreewheel` stops the cycle first. -/
def FWOutcome (s r : MotorState) : Prop :=
  r.beh = s.beh ∧ r.use_en = s.use_en ∧
  ((r.soft_active = true ∧ r.dutyA = 0 ∧ r.dutyB = 0 ∧
    r.soft_phase = BrakePhase.Coast ∧
    r.timer_armed = some (schedCoastVal r)) ∨
   (r.dutyA = 100 ∧ r.dutyB = 100 ∧ r.soft_active = false ∧
    r.timer_armed = none ∧ (s.use_en = true → r.en_state = true)) ∨
   (r.dutyA = 0 ∧ r.dutyB = 0 ∧ r.soft_active = false ∧
    r.timer_armed = none ∧
    (s.use_en = true →
      (r.en_state = true ↔ s.beh.freewheel_mode = FreewheelMode.HiZ_Awake))))

/-- Concrete state used by the C3 witness: the result of `setSpeed(0, CW)`
from a fresh driver (default soft-brake duty 50, so the dither engages). -/
def c3exR : MotorState :=
  (setSpeedF 1 0 Dir.CW initMotorState).getD initMotorState

/-- Concrete dithering state used by the C4 counterexample and witness: the
result of `startSoftBrake` from a fresh driver with requested duty 512. -/
def c4act : MotorState :=
  (startSoftBrakeF 1
    { initMotorState with soft_brake_pwm := 512 }).getD initMotorState

/-- Concrete drive state used by the C5 and C6 witnesses. -/
def c5driveR : MotorState :=
  (setSpeedF 1 5 Dir.CW initMotorState).getD initMotorState

/-- Concrete freewheel result used by the C5 witness. -/
def c5fwR : MotorState :=
  (setFreewheelF 1 initMotorState).getD initMotorState

/-- Concrete drive state used by the C6 witness: `setSpeed(2000, CW)` from a
fresh driver (clamped to 1023, 100% duty on A). -/
def c6exR : MotorState :=
  (setSpeedF 1 2000 Dir.CW initMotorState).getD initMotorState

/-- The behavior configuration on which the mutual recursion diverges:
`DitherBrake` freewheel with `dither_pwm = 0`. -/
def c10bad : MotorState :=
  { initMotorState with beh := ⟨FreewheelMode.DitherBrake, 300, 0⟩ }

/-- The loop fixpoint reached from `c10bad`: requested duty 0, recomputed
level 0, coast duration 3333 µs (one 300 Hz period). -/
def c10fix : MotorState :=
  { c10bad with soft_brake_pwm := 0, soft_us_coast := 3333 }

/-! ## Theorems -/

namespace MathFns

theorem clamp_le {α : Type} [LinearOrder α] (value low high : α)
    (h : low ≤ high) : clamp value low high ≤ high := by
  unfold clamp
  split
  · exact h
  · split
    · exact le_refl high
    · exact le_of_not_lt (by assumption)

theorem le_clamp {α : Type} [LinearOrder α] (value low high : α)
    (h : low ≤ high) : low ≤ clamp value low high := by
  unfold clamp
  split
  · exact le_refl low
  · split
    · exact h
    · exact le_of_not_lt (by assumption)

theorem clamp_eq_of_mem {α : Type} [LinearOrder α] (value low high : α)
    (h1 : low ≤ value) (h2 : value ≤ high) : clamp value low high = value := by
  unfold clamp
  rw [if_neg (not_lt.mpr h1), if_neg (not_lt.mpr h2)]

end MathFns

/-! ## Claim C1: press/release classification -/

/-- C1: for every accepted release (channel debounced-pressed, raw sample
released, debounce window satisfied) with duration `d = now - press_start`
(computed in `uint32` arithmetic), the pending event is set to `Long` iff
`d >= long_press_ms`, to `Short` iff `short_press_ms <= d < long_press_ms`,
and to `None` iff `d < short_press_ms`.  The hypothesis
`short_press_ms <= long_press_ms` is the spec's own domain invariant for the
timing policy (spec section 3). -/
theorem c1_classification (t : ButtonTimingConfig) (now : Nat)
    (c : ButtonChannel)
    (hshortlong : t.short_press_ms ≤ t.long_press_ms)
    (hheld : c.last_state = true)
    (haccept : t.debounce_ms ≤ sub32 now c.last_state_change) :
    ((updateChannel t now false c).event = ButtonPressType.Long ↔
       t.long_press_ms ≤ sub32 now c.press_start) ∧
    ((updateChannel t now false c).event = ButtonPressType.Short ↔
       (t.short_press_ms ≤ sub32 now c.press_start ∧
        sub32 now c.press_start < t.long_press_ms)) ∧
    ((updateChannel t now false c).event = ButtonPressType.None ↔
       sub32 now c.press_start < t.short_press_ms) := by
  have hev : (updateChannel t now false c).event =
      classifyPress t (sub32 now c.press_start) := by
    unfold updateChannel
    rw [if_pos (by simp [hheld]), if_pos haccept]
    simp
  rw [hev]
  unfold classifyPress
  split_ifs with h1 h2
  · refine ⟨⟨fun _ => h1, fun _ => rfl⟩,
            ⟨fun he => he.elim, fun hd => ?_⟩,
            ⟨fun he => he.elim, fun hd => ?_⟩⟩
    · omega
    · omega
  · refine ⟨⟨fun he => he.elim, fun hd => ?_⟩,
            ⟨fun _ => ⟨h2, not_le.mp h1⟩, fun _ => rfl⟩,
            ⟨fun he => he.elim, fun hd => ?_⟩⟩
    · omega
    · omega
  · refine ⟨⟨fun he => he.elim, fun hd => ?_⟩,
            ⟨fun he => he.elim, fun hd => ?_⟩,
            ⟨fun _ => not_le.mp h2, fun _ => rfl⟩⟩
    · omega
    · omega

/-- Witness for C1: debounce 30 / short 200 / long 1000, press started at
100 and released at 600 (duration 500) classifies as `Short`. -/
theorem c1_classification_witness :
    ((updateChannel ⟨30, 200, 1000⟩ 600 false
        ⟨true, 0, 100, ButtonPressType.None⟩).event = ButtonPressType.Long ↔
       1000 ≤ sub32 600 100) ∧
    ((updateChannel ⟨30, 200, 1000⟩ 600 false
        ⟨true, 0, 100, ButtonPressType.None⟩).event = ButtonPressType.Short ↔
       (200 ≤ sub32 600 100 ∧ sub32 600 100 < 1000)) ∧
    ((updateChannel ⟨30, 200, 1000⟩ 600 false
        ⟨true, 0, 100, ButtonPressType.None⟩).event = ButtonPressType.None ↔
       sub32 600 100 < 200) :=
  c1_classification ⟨30, 200, 1000⟩ 600 ⟨true, 0, 100, ButtonPressType.None⟩
    (by decide) (by decide) (by decide)

/-! ## Claim C7: consume-once press events -/

/-- C7: `getPressType` returns the channel's pending event and resets it to
`None`: a second call without an intervening qualifying release yields
`None`; an out-of-range channel id returns `None` and leaves the whole bank
unchanged.  In range, the only state change is the consumed channel's event
slot. -/
theorem c7_consume_once (bank : List ButtonChannel) (i : Nat) :
    (∀ h : i < bank.length,
       (getPressType i bank).1 = bank[i].event ∧
       (getPressType i (getPressType i bank).2).1 = ButtonPressType.None ∧
       (getPressType i bank).2 =
         bank.set i { bank[i] with event := ButtonPressType.None }) ∧
    (bank.length ≤ i → getPressType i bank = (ButtonPressType.None, bank)) := by
  constructor
  · intro h
    refine ⟨?_, ?_, ?_⟩
    · unfold getPressType
      rw [dif_pos h]
    · have h2 : i < ((getPressType i bank).2).length := by
        unfold getPressType
        rw [dif_pos h]
        simpa using h
      unfold getPressType
      rw [dif_pos h]
      have h3 : i < (bank.set i
          { bank[i] with event := ButtonPressType.None }).length := by
        simpa using h
      rw [dif_pos h3]
      simp
    · unfold getPressType
      rw [dif_pos h]
  · intro h
    unfold getPressType
    rw [dif_neg (not_lt.mpr h)]

/-- Witness for C7: a one-channel bank with a pending `Short` event yields
`Short` once and `None` on the repeated call; channel id 1 is out of range
and is a no-op. -/
theorem c7_consume_once_witness :
    ((getPressType 0 [⟨false, 0, 0, ButtonPressType.Short⟩]).1 =
       ([⟨false, 0, 0, ButtonPressType.Short⟩] :
         List ButtonChannel)[0].event ∧
     (getPressType 0
        (getPressType 0 [⟨false, 0, 0, ButtonPressType.Short⟩]).2).1 =
       ButtonPressType.None ∧
     (getPressType 0 [⟨false, 0, 0, ButtonPressType.Short⟩]).2 =
       ([⟨false, 0, 0, ButtonPressType.Short⟩] : List ButtonChannel).set 0
         { ([⟨false, 0, 0, ButtonPressType.Short⟩] :
             List ButtonChannel)[0] with event := ButtonPressType.None }) ∧
    (getPressType 1 [⟨false, 0, 0, ButtonPressType.Short⟩] =
       (ButtonPressType.None, [⟨false, 0, 0, ButtonPressType.Short⟩])) :=
  ⟨(c7_consume_once [⟨false, 0, 0, ButtonPressType.Short⟩] 0).1 (by decide),
   (c7_consume_once [⟨false, 0, 0, ButtonPressType.Short⟩] 1).2 (by decide)⟩

/-! ## Claim C8: chatter rejection -/

/-- C8 counterexample: the claim "for every raw state sequence whose
inter-transition spacing is less than `debounceMs`, `debouncedState` never
changes" is false for the code.  With debounce 30 ms and a channel whose
last accepted change was at time 0, the raw transitions at 100 (to pressed)
and 110 (to released) are spaced 10 ms < 30 ms apart, yet the first one is
accepted — `100 - 0 >= 30` — and flips the debounced state.  The algorithm
anchors the debounce window at the last *accepted* change, not at the
previous raw transition. -/
theorem c8_counterexample :
    (110 - 100 < 30) ∧
    (updateChannel ⟨30, 200, 1000⟩ 100 true
        ⟨false, 0, 0, ButtonPressType.None⟩).last_state ≠
      (⟨false, 0, 0, ButtonPressType.None⟩ : ButtonChannel).last_state := by
  decide

/-- C8 (amended): a channel is completely unchanged by any raw sample taken
less than `debounce_ms` after its last accepted state change — so raw
chatter inside the debounce window anchored at the last accepted transition
is rejected, and consecutive accepted changes are at least `debounce_ms`
apart. -/
theorem c8_chatter_window (t : ButtonTimingConfig) (now : Nat)
    (pressed : Bool) (c : ButtonChannel)
    (h : sub32 now c.last_state_change < t.debounce_ms) :
    updateChannel t now pressed c = c := by
  unfold updateChannel
  split
  · rw [if_neg (not_le.mpr h)]
  · rfl

/-- Witness for C8 (amended): with debounce 30 and last accepted change at
100, a differing raw sample at 110 is ignored. -/
theorem c8_chatter_window_witness :
    updateChannel ⟨30, 200, 1000⟩ 110 false
        ⟨true, 100, 100, ButtonPressType.None⟩ =
      ⟨true, 100, 100, ButtonPressType.None⟩ :=
  c8_chatter_window ⟨30, 200, 1000⟩ 110 false
    ⟨true, 100, 100, ButtonPressType.None⟩ (by decide)

/-! ## Claim C9: HiZ to HiZ_Awake remapping at setup -/

/-- C9 counterexample: the claim says the upgrade to `HiZ_Awake` happens
"whether the behavior profile is the default or supplied by the caller".
Calling the two-argument `setup` with `en_pin = -1` and a caller-supplied
profile requesting `HiZ` stores `HiZ` verbatim — no upgrade happens on the
caller-supplied path (HBridgeMotor.cpp lines 43-58 contain no remap; only
the one-argument overload remaps, lines 33-37). -/
theorem c9_counterexample :
    (setupWithBehavior (-1) defaultBehavior initMotorState).beh.freewheel_mode
        = FreewheelMode.HiZ ∧
    FreewheelMode.HiZ ≠ FreewheelMode.HiZ_Awake := by
  decide

/-- C9 (amended): the silent `HiZ` to `HiZ_Awake` upgrade for `en_pin < 0`
applies only when the default behavior profile is used (the one-argument
`setup`); a caller-supplied profile is stored verbatim, even `HiZ` with no
enable pin. -/
theorem c9_default_remap (en_pin : Int) (beh : MotorBehaviorConfig)
    (s : MotorState) (h : en_pin < 0) :
    (setupDefault en_pin s).beh.freewheel_mode = FreewheelMode.HiZ_Awake ∧
    (setupWithBehavior en_pin beh s).beh = beh := by
  have hbeh : ∀ (b : MotorBehaviorConfig), (setupWithBehavior en_pin b s).beh = b := by
    intro b
    unfold setupWithBehavior setEnable
    simp only []
    split
    · split
      · rfl
      · rfl
    · rfl
  constructor
  · unfold setupDefault defaultBehavior
    simp only []
    rw [if_pos ⟨h, trivial⟩]
    rw [hbeh]
  · exact hbeh beh

/-- Witness for C9 (amended): `en_pin = -1` with a caller profile
requesting `DitherBrake`. -/
theorem c9_default_remap_witness :
    (setupDefault (-1) initMotorState).beh.freewheel_mode
        = FreewheelMode.HiZ_Awake ∧
    (setupWithBehavior (-1) ⟨FreewheelMode.DitherBrake, 250, 40⟩
        initMotorState).beh = ⟨FreewheelMode.DitherBrake, 250, 40⟩ :=
  c9_default_remap (-1) ⟨FreewheelMode.DitherBrake, 250, 40⟩ initMotorState
    (by decide)

/-! ## Claim C2: soft-brake phase durations -/

/-- `kMinPhaseUs` unfolded, for `omega`. -/
theorem kMinPhaseUs_eq : kMinPhaseUs = 1500 := rfl

/-- The guardrail never shrinks a duration. -/
theorem floorPhase_ge (d : Int) : d ≤ floorPhase d := by
  unfold floorPhase
  split
  · next h => exact le_of_lt h.1
  · exact le_refl d

/-- The guardrail adds less than `kMinPhaseUs` to a duration. -/
theorem floorPhase_lt (d : Int) : floorPhase d < d + kMinPhaseUs := by
  unfold floorPhase kMinPhaseUs
  split
  · next h => omega
  · omega

/-- A nonzero floored duration is at least `kMinPhaseUs`. -/
theorem floorPhase_min (d : Int) (h0 : 0 ≤ d) (hne : floorPhase d ≠ 0) :
    kMinPhaseUs ≤ floorPhase d := by
  by_cases h : d < kMinPhaseUs ∧ 0 < d
  · unfold floorPhase
    rw [if_pos h]
  · unfold floorPhase at hne ⊢
    rw [if_neg h] at hne ⊢
    rcases not_and_or.mp h with h1 | h2 <;> rw [kMinPhaseUs_eq] at * <;> omega

/-- The dither period is non-negative for a positive frequency. -/
theorem periodUsOf_nonneg (hz : Int) (h : 0 < hz) : 0 ≤ periodUsOf hz := by
  unfold periodUsOf kMicrosPerSec
  positivity

/-- The soft-brake level is clamped to `[0, 1]`. -/
theorem softLevelOf_mem (pwm : Nat) :
    0 ≤ softLevelOf pwm ∧ softLevelOf pwm ≤ 1 := by
  unfold softLevelOf
  exact ⟨MathFns.le_clamp _ 0 1 (by norm_num),
         MathFns.clamp_le _ 0 1 (by norm_num)⟩

/-- The raw brake duration is non-negative and at most the floored period. -/
theorem rawBrakeUsOf_bounds (hz : Int) (level : ℚ) (hhz : 0 < hz)
    (h0 : 0 ≤ level) (h1 : level ≤ 1) :
    0 ≤ rawBrakeUsOf hz level ∧
    rawBrakeUsOf hz level ≤ Int.floor (periodUsOf hz) := by
  have hp := periodUsOf_nonneg hz hhz
  constructor
  · exact Int.floor_nonneg.mpr (mul_nonneg hp h0)
  · exact Int.floor_le_floor (mul_le_of_le_one_right hp h1)

/-- The raw durations split the floored period exactly:
`rawBrakeUs + rawCoastUs = floor(period)`. -/
theorem raw_sum (hz : Int) (level : ℚ) :
    rawBrakeUsOf hz level + rawCoastUsOf hz level =
      Int.floor (periodUsOf hz) := by
  unfold rawCoastUsOf
  omega

/-- C2: for every positive dither frequency and requested duty, the phase
durations computed by `recomputeSoftDurations` satisfy
`floor(period) <= brakeUs + coastUs < floor(period) + 2 * kMinPhaseUs`
(the sum equals the floored period up to the floor-enforced rounding), and
each duration is at least `kMinPhaseUs` whenever nonzero.  Concretely, for
`setSoftBrakePwm(512)` with max 1023 and 300 Hz the stored level is
`512/1023` (about 0.5005), giving `brakeUs = 1668` and `coastUs = 1665`
(within 2 microseconds of the spec's nominal 1666/1667), summing exactly to
the floored period 3333 and both at or above the 1500 microsecond floor. -/
theorem c2_soft_brake_durations :
    (∀ (hz : Int) (pwm : Nat), 0 < hz →
       (Int.floor (periodUsOf hz) ≤ brakeUs hz pwm + coastUs hz pwm ∧
        brakeUs hz pwm + coastUs hz pwm <
          Int.floor (periodUsOf hz) + 2 * kMinPhaseUs) ∧
       (brakeUs hz pwm ≠ 0 → kMinPhaseUs ≤ brakeUs hz pwm) ∧
       (coastUs hz pwm ≠ 0 → kMinPhaseUs ≤ coastUs hz pwm)) ∧
    (brakeUs 300 512 = 1668 ∧ coastUs 300 512 = 1665 ∧
     brakeUs 300 512 + coastUs 300 512 = Int.floor (periodUsOf 300) ∧
     kMinPhaseUs ≤ brakeUs 300 512 ∧ kMinPhaseUs ≤ coastUs 300 512 ∧
     (brakeUs 300 512 - 1666).natAbs ≤ 2 ∧
     (coastUs 300 512 - 1667).natAbs ≤ 2) := by
  constructor
  · intro hz pwm hhz
    obtain ⟨hl0, hl1⟩ := softLevelOf_mem pwm
    obtain ⟨hb0, hbp⟩ := rawBrakeUsOf_bounds hz (softLevelOf pwm) hhz hl0 hl1
    have hc0 : 0 ≤ rawCoastUsOf hz (softLevelOf pwm) := by
      unfold rawCoastUsOf
      omega
    have hsum := raw_sum hz (softLevelOf pwm)
    have hbge := floorPhase_ge (rawBrakeUsOf hz (softLevelOf pwm))
    have hblt := floorPhase_lt (rawBrakeUsOf hz (softLevelOf pwm))
    have hcge := floorPhase_ge (rawCoastUsOf hz (softLevelOf pwm))
    have hclt := floorPhase_lt (rawCoastUsOf hz (softLevelOf pwm))
    refine ⟨⟨?_, ?_⟩, ?_, ?_⟩
    · unfold brakeUs coastUs
      omega
    · unfold brakeUs coastUs
      rw [kMinPhaseUs_eq] at *
      omega
    · exact fun hne => floorPhase_min _ hb0 hne
    · exact fun hne => floorPhase_min _ hc0 hne
  · refine ⟨by decide, by decide, by decide, by decide, by decide, by decide,
            by decide⟩

/-- Witness for C2: the universally quantified half instantiated at 300 Hz
and duty 512. -/
theorem c2_soft_brake_durations_witness :
    (Int.floor (periodUsOf 300) ≤ brakeUs 300 512 + coastUs 300 512 ∧
     brakeUs 300 512 + coastUs 300 512 <
       Int.floor (periodUsOf 300) + 2 * kMinPhaseUs) ∧
    (brakeUs 300 512 ≠ 0 → kMinPhaseUs ≤ brakeUs 300 512) ∧
    (coastUs 300 512 ≠ 0 → kMinPhaseUs ≤ coastUs 300 512) :=
  c2_soft_brake_durations.1 300 512 (by decide)

/-! ## Projection lemmas for the motor operations -/

theorem setEnable_beh (b : Bool) (s : MotorState) :
    (setEnable b s).beh = s.beh := by
  unfold setEnable
  split <;> rfl

theorem setEnable_use_en (b : Bool) (s : MotorState) :
    (setEnable b s).use_en = s.use_en := by
  unfold setEnable
  split <;> rfl

theorem setEnable_dutyA (b : Bool) (s : MotorState) :
    (setEnable b s).dutyA = s.dutyA := by
  unfold setEnable
  split <;> rfl

theorem setEnable_dutyB (b : Bool) (s : MotorState) :
    (setEnable b s).dutyB = s.dutyB := by
  unfold setEnable
  split <;> rfl

theorem setEnable_soft_active (b : Bool) (s : MotorState) :
    (setEnable b s).soft_active = s.soft_active := by
  unfold setEnable
  split <;> rfl

theorem setEnable_timer (b : Bool) (s : MotorState) :
    (setEnable b s).timer_armed = s.timer_armed := by
  unfold setEnable
  split <;> rfl

theorem setEnable_en_state (b : Bool) (s : MotorState) :
    (setEnable b s).en_state = if s.use_en then b else s.en_state := by
  unfold setEnable
  split
  · next h => rw [if_pos h.1]
  · next h =>
    by_cases hu : s.use_en
    · rw [if_pos hu]
      have heq : s.en_state = b := not_not.mp (not_and.mp h hu)
      exact heq
    · rw [if_neg hu]

theorem stopSoftBrake_beh (s : MotorState) :
    (stopSoftBrake s).beh = s.beh := by
  unfold stopSoftBrake
  split <;> rfl

theorem stopSoftBrake_use_en (s : MotorState) :
    (stopSoftBrake s).use_en = s.use_en := by
  unfold stopSoftBrake
  split <;> rfl

theorem stopSoftBrake_en_state (s : MotorState) :
    (stopSoftBrake s).en_state = s.en_state := by
  unfold stopSoftBrake
  split <;> rfl

theorem stopSoftBrake_dutyA (s : MotorState) :
    (stopSoftBrake s).dutyA = s.dutyA := by
  unfold stopSoftBrake
  split <;> rfl

theorem stopSoftBrake_dutyB (s : MotorState) :
    (stopSoftBrake s).dutyB = s.dutyB := by
  unfold stopSoftBrake
  split <;> rfl

theorem stopSoftBrake_pwm (s : MotorState) :
    (stopSoftBrake s).soft_brake_pwm = s.soft_brake_pwm := by
  unfold stopSoftBrake
  split <;> rfl

theorem stopSoftBrake_hz (s : MotorState) :
    (stopSoftBrake s).soft_hz = s.soft_hz := by
  unfold stopSoftBrake
  split <;> rfl

theorem stopSoftBrake_level (s : MotorState) :
    (stopSoftBrake s).soft_level = s.soft_level := by
  unfold stopSoftBrake
  split <;> rfl

theorem stopSoftBrake_soft_active (s : MotorState) :
    (stopSoftBrake s).soft_active = false := by
  unfold stopSoftBrake
  split
  · rfl
  · next h => simpa using h

theorem stopSoftBrake_timer_none (s : MotorState) (hinv : TimerInv s) :
    (stopSoftBrake s).timer_armed = none := by
  unfold stopSoftBrake
  split
  · rfl
  · next h =>
    by_cases ht : s.timer_armed = none
    · exact ht
    · exact absurd (hinv ht) h

/-- A state with no pending one-shot trivially satisfies the timer/flag
coupling. -/
theorem timerInv_of_none (s : MotorState) (h : s.timer_armed = none) :
    TimerInv s := by
  intro hne
  exact absurd h hne

theorem recompute_beh (s : MotorState) :
    (recomputeSoftDurations s).beh = s.beh := rfl

theorem recompute_use_en (s : MotorState) :
    (recomputeSoftDurations s).use_en = s.use_en := rfl

theorem recompute_en_state (s : MotorState) :
    (recomputeSoftDurations s).en_state = s.en_state := rfl

theorem recompute_dutyA (s : MotorState) :
    (recomputeSoftDurations s).dutyA = s.dutyA := rfl

theorem recompute_dutyB (s : MotorState) :
    (recomputeSoftDurations s).dutyB = s.dutyB := rfl

theorem recompute_soft_active (s : MotorState) :
    (recomputeSoftDurations s).soft_active = s.soft_active := rfl

theorem recompute_timer (s : MotorState) :
    (recomputeSoftDurations s).timer_armed = s.timer_armed := rfl

theorem recompute_pwm (s : MotorState) :
    (recomputeSoftDurations s).soft_brake_pwm = s.soft_brake_pwm := rfl

theorem recompute_hz (s : MotorState) :
    (recomputeSoftDurations s).soft_hz = s.soft_hz := rfl

theorem recompute_level (s : MotorState) :
    (recomputeSoftDurations s).soft_level = softLevelOf s.soft_brake_pwm := rfl

theorem raw_beh (s : MotorState) :
    (rawRecomputeDurations s).beh = s.beh := rfl

theorem raw_use_en (s : MotorState) :
    (rawRecomputeDurations s).use_en = s.use_en := rfl

theorem raw_en_state (s : MotorState) :
    (rawRecomputeDurations s).en_state = s.en_state := rfl

theorem raw_dutyA (s : MotorState) :
    (rawRecomputeDurations s).dutyA = s.dutyA := rfl

theorem raw_dutyB (s : MotorState) :
    (rawRecomputeDurations s).dutyB = s.dutyB := rfl

theorem raw_soft_active (s : MotorState) :
    (rawRecomputeDurations s).soft_active = s.soft_active := rfl

theorem raw_timer (s : MotorState) :
    (rawRecomputeDurations s).timer_armed = s.timer_armed := rfl

theorem writeAB_beh (a b : ℚ) (s : MotorState) :
    (writeAB a b s).beh = s.beh := rfl

theorem writeAB_use_en (a b : ℚ) (s : MotorState) :
    (writeAB a b s).use_en = s.use_en := rfl

theorem writeAB_en_state (a b : ℚ) (s : MotorState) :
    (writeAB a b s).en_state = s.en_state := rfl

theorem writeAB_dutyA (a b : ℚ) (s : MotorState) :
    (writeAB a b s).dutyA = a := rfl

theorem writeAB_dutyB (a b : ℚ) (s : MotorState) :
    (writeAB a b s).dutyB = b := rfl

theorem writeAB_soft_active (a b : ℚ) (s : MotorState) :
    (writeAB a b s).soft_active = s.soft_active := rfl

theorem writeAB_timer (a b : ℚ) (s : MotorState) :
    (writeAB a b s).timer_armed = s.timer_armed := rfl

theorem writeAB_phase (a b : ℚ) (s : MotorState) :
    (writeAB a b s).soft_phase = s.soft_phase := rfl

theorem writeAB_coast (a b : ℚ) (s : MotorState) :
    (writeAB a b s).soft_us_coast = s.soft_us_coast := rfl

theorem setPWM_beh (pwm : Nat) (s : MotorState) :
    (setSoftBrakePWMstate pwm s).beh = s.beh := by
  unfold setSoftBrakePWMstate
  simp only []
  split <;> rfl

theorem setPWM_use_en (pwm : Nat) (s : MotorState) :
    (setSoftBrakePWMstate pwm s).use_en = s.use_en := by
  unfold setSoftBrakePWMstate
  simp only []
  split <;> rfl

theorem setPWM_en_state (pwm : Nat) (s : MotorState) :
    (setSoftBrakePWMstate pwm s).en_state = s.en_state := by
  unfold setSoftBrakePWMstate
  simp only []
  split <;> rfl

theorem setPWM_dutyA (pwm : Nat) (s : MotorState) :
    (setSoftBrakePWMstate pwm s).dutyA = s.dutyA := by
  unfold setSoftBrakePWMstate
  simp only []
  split <;> rfl

theorem setPWM_dutyB (pwm : Nat) (s : MotorState) :
    (setSoftBrakePWMstate pwm s).dutyB = s.dutyB := by
  unfold setSoftBrakePWMstate
  simp only []
  split <;> rfl

theorem setPWM_soft_active (pwm : Nat) (s : MotorState) :
    (setSoftBrakePWMstate pwm s).soft_active = s.soft_active := by
  unfold setSoftBrakePWMstate
  simp only []
  split <;> rfl

theorem setPWM_timer (pwm : Nat) (s : MotorState) :
    (setSoftBrakePWMstate pwm s).timer_armed = s.timer_armed := by
  unfold setSoftBrakePWMstate
  simp only []
  split <;> rfl

theorem applyPhase_coast (s : MotorState) :
    applyPhase BrakePhase.Coast s = writeAB 0 0 s := rfl

theorem applyPhase_brake (s : MotorState) :
    applyPhase BrakePhase.Brake s = writeAB 100 100 (setEnable true s) := rfl

/-- `scheduleNextPhase` on an active state in the coast phase arms the
floored coast duration. -/
theorem schedule_coast (s : MotorState) (ha : s.soft_active = true)
    (hp : s.soft_phase = BrakePhase.Coast) :
    scheduleNextPhase s = { s with timer_armed := some (schedCoastVal s) } := by
  unfold scheduleNextPhase schedCoastVal
  rw [if_neg (by rw [ha]; exact fun hc => Bool.noConfusion hc), hp]

/-- `recomputeSoftDurations` preserves the timer/flag coupling. -/
theorem timerInv_recompute (s : MotorState) (h : TimerInv s) :
    TimerInv (recomputeSoftDurations s) := by
  intro hne
  rw [recompute_timer] at hne
  rw [recompute_soft_active]
  exact h hne

/-- Joint outcome lemma for the mutually recursive
`startSoftBrake`/`setFreewheel` pair, by induction on the fuel: whenever a
call terminates from a state satisfying the timer/flag coupling, the result
is one of the three legal output patterns (dither active, hard brake, or
`HiZ`/`HiZ_Awake` freewheel). -/
theorem sb_fw_outcome (n : Nat) :
    (∀ s r, TimerInv s → startSoftBrakeF n s = some r → SBOutcome s r) ∧
    (∀ s r, TimerInv s → setFreewheelF n s = some r → FWOutcome s r) := by
  induction n with
  | zero =>
    constructor
    · intro s r _ hr
      exact Option.noConfusion hr
    · intro s r _ hr
      exact Option.noConfusion hr
  | succ n ih =>
    constructor
    · intro s r hinv hr
      rw [startSoftBrakeF] at hr
      simp only [] at hr
      have hinv1 : TimerInv (recomputeSoftDurations s) := timerInv_recompute s hinv
      split at hr
      · -- level <= 0.001: falls through to setFreewheel on the stopped state
        have hinv2 : TimerInv (stopSoftBrake (recomputeSoftDurations s)) :=
          timerInv_of_none _ (stopSoftBrake_timer_none _ hinv1)
        have hfw := ih.2 _ r hinv2 hr
        obtain ⟨hbeh, huse, hcases⟩ := hfw
        refine ⟨?_, ?_, ?_⟩
        · rw [hbeh, stopSoftBrake_beh, recompute_beh]
        · rw [huse, stopSoftBrake_use_en, recompute_use_en]
        · rcases hcases with hact | hhard | hfree
          · exact Or.inl ⟨hact.1, Or.inr ⟨hact.2.1, hact.2.2.1,
              hact.2.2.2.1, hact.2.2.2.2⟩⟩
          · refine Or.inr (Or.inl ⟨hhard.1, hhard.2.1, hhard.2.2.1,
              hhard.2.2.2.1, fun hu => ?_⟩)
            exact hhard.2.2.2.2 (by
              rw [stopSoftBrake_use_en, recompute_use_en]; exact hu)
          · refine Or.inr (Or.inr ⟨hfree.1, hfree.2.1, hfree.2.2.1,
              hfree.2.2.2.1, fun hu => ?_⟩)
            have hiff := hfree.2.2.2.2 (by
              rw [stopSoftBrake_use_en, recompute_use_en]; exact hu)
            rw [stopSoftBrake_beh, recompute_beh] at hiff
            exact hiff
      · -- level >= 0.999: direct hard brake
        split at hr
        · injection hr with hx
          subst hx
          refine ⟨?_, ?_, Or.inr (Or.inl ⟨rfl, rfl, ?_, ?_, ?_⟩)⟩
          · rw [writeAB_beh, setEnable_beh, stopSoftBrake_beh, recompute_beh]
          · rw [writeAB_use_en, setEnable_use_en, stopSoftBrake_use_en,
                recompute_use_en]
          · rw [writeAB_soft_active, setEnable_soft_active,
                stopSoftBrake_soft_active]
          · rw [writeAB_timer, setEnable_timer,
                stopSoftBrake_timer_none _ hinv1]
          · intro hu
            rw [writeAB_en_state, setEnable_en_state,
                stopSoftBrake_use_en, recompute_use_en, hu]
            simp
        · -- mid level
          split at hr
          · -- already active: only the durations were updated in place
            next hact2 =>
            injection hr with hx
            subst hx
            refine ⟨?_, ?_, Or.inl ⟨?_, Or.inl ⟨?_, ?_, ?_, ?_⟩⟩⟩
            · rw [raw_beh, recompute_beh]
            · rw [raw_use_en, recompute_use_en]
            · rw [raw_soft_active, recompute_soft_active] at hact2 ⊢
              exact hact2
            · rw [raw_soft_active, recompute_soft_active] at hact2
              exact hact2
            · rw [raw_timer, recompute_timer]
            · rw [raw_dutyA, recompute_dutyA]
            · rw [raw_dutyB, recompute_dutyB]
          · -- fresh engagement in the coast phase
            injection hr with hx
            subst hx
            rw [applyPhase_coast, schedule_coast _ rfl rfl]
            refine ⟨?_, ?_, Or.inl ⟨rfl, Or.inr ⟨rfl, rfl, rfl, rfl⟩⟩⟩
            · show (rawRecomputeDurations (recomputeSoftDurations s)).beh = s.beh
              rw [raw_beh, recompute_beh]
            · show (rawRecomputeDurations
                  (recomputeSoftDurations s)).use_en = s.use_en
              rw [raw_use_en, recompute_use_en]
    · intro s r hinv hr
      rw [setFreewheelF] at hr
      have htimer1 : (stopSoftBrake s).timer_armed = none :=
        stopSoftBrake_timer_none s hinv
      split at hr
      · -- HiZ
        next heq =>
        injection hr with hx
        subst hx
        refine ⟨?_, ?_, Or.inr (Or.inr ⟨rfl, rfl, ?_, ?_, ?_⟩)⟩
        · rw [writeAB_beh, setEnable_beh, stopSoftBrake_beh]
        · rw [writeAB_use_en, setEnable_use_en, stopSoftBrake_use_en]
        · rw [writeAB_soft_active, setEnable_soft_active,
              stopSoftBrake_soft_active]
        · rw [writeAB_timer, setEnable_timer, htimer1]
        · intro hu
          rw [stopSoftBrake_beh] at heq
          rw [writeAB_en_state, setEnable_en_state, stopSoftBrake_use_en, hu,
              heq]
          simp
      · -- HiZ_Awake
        next heq =>
        injection hr with hx
        subst hx
        refine ⟨?_, ?_, Or.inr (Or.inr ⟨rfl, rfl, ?_, ?_, ?_⟩)⟩
        · rw [writeAB_beh, setEnable_beh, stopSoftBrake_beh]
        · rw [writeAB_use_en, setEnable_use_en, stopSoftBrake_use_en]
        · rw [writeAB_soft_active, setEnable_soft_active,
              stopSoftBrake_soft_active]
        · rw [writeAB_timer, setEnable_timer, htimer1]
        · intro hu
          rw [stopSoftBrake_beh] at heq
          rw [writeAB_en_state, setEnable_en_state, stopSoftBrake_use_en, hu,
              heq]
          simp
      · -- DitherBrake: hand over to startSoftBrake
        next heq =>
        have hinv2 : TimerInv
            (setSoftBrakePWMstate (stopSoftBrake s).beh.dither_pwm
              (stopSoftBrake s)) :=
          timerInv_of_none _ (by rw [setPWM_timer, htimer1])
        have hsb := ih.1 _ r hinv2 hr
        obtain ⟨hbeh, huse, hcases⟩ := hsb
        rw [setPWM_beh, stopSoftBrake_beh] at hbeh
        rw [setPWM_use_en, stopSoftBrake_use_en] at huse
        refine ⟨hbeh, huse, ?_⟩
        rcases hcases with ⟨hact, hsub⟩ | hhard | hfree
        · rcases hsub with ⟨hpre, _⟩ | hfresh
          · rw [setPWM_soft_active, stopSoftBrake_soft_active] at hpre
            exact Bool.noConfusion hpre
          · exact Or.inl ⟨hact, hfresh.1, hfresh.2.1, hfresh.2.2.1,
              hfresh.2.2.2⟩
        · refine Or.inr (Or.inl ⟨hhard.1, hhard.2.1, hhard.2.2.1,
            hhard.2.2.2.1, fun hu => ?_⟩)
          exact hhard.2.2.2.2 (by
            rw [setPWM_use_en, stopSoftBrake_use_en]; exact hu)
        · refine Or.inr (Or.inr ⟨hfree.1, hfree.2.1, hfree.2.2.1,
            hfree.2.2.2.1, fun hu => ?_⟩)
          have hiff := hfree.2.2.2.2 (by
            rw [setPWM_use_en, stopSoftBrake_use_en]; exact hu)
          rw [setPWM_beh, stopSoftBrake_beh] at hiff
          exact hiff

/-- Firing is impossible with no one-shot armed. -/
theorem softBrakeFire_none (s : MotorState) (h : s.timer_armed = none) :
    softBrakeFire s = none := by
  unfold softBrakeFire
  rw [h]

/-- `softLevelOf 0 = 0`. -/
theorem softLevelOf_zero : softLevelOf 0 = 0 := by decide

/-- A zero requested duty gives a zero raw brake duration. -/
theorem brakeUs_zero (hz : Int) : brakeUs hz 0 = 0 := by
  unfold brakeUs rawBrakeUsOf
  rw [softLevelOf_zero, mul_zero]
  rw [show Int.floor (0 : ℚ) = 0 from Int.floor_zero]
  unfold floorPhase
  rw [if_neg (by omega)]

/-! ## Claim C3: zero clamped speed routes through the brake path -/

/-- C3: whenever `clamp(speed, 0, max) = 0`, `setSpeed` is exactly
`startSoftBrake` — it never takes the drive path — and whenever the call
terminates, the resulting state is an active dither cycle, a hard brake
(both outputs 100%), or a `HiZ`/`HiZ_Awake` freewheel with both outputs 0%
and the enable line matching the configured sub-mode (asserted iff
`HiZ_Awake`) — never a raw zero-duty drive pattern.  Stated for states
satisfying the timer/flag coupling `TimerInv`, which every reachable state
satisfies. -/
theorem c3_zero_speed_soft_brake (n : Nat) (speed : Int) (dir : Dir)
    (s r : MotorState) (hinv : TimerInv s)
    (hz : MathFns.clamp speed 0 kPwmMaxInput = 0) :
    (setSpeedF n speed dir s = startSoftBrakeF n s) ∧
    (setSpeedF n speed dir s = some r →
      (r.soft_active = true ∨
       (r.dutyA = 100 ∧ r.dutyB = 100) ∨
       (r.dutyA = 0 ∧ r.dutyB = 0 ∧ r.soft_active = false ∧
        (s.use_en = true →
          (r.en_state = true ↔
            s.beh.freewheel_mode = FreewheelMode.HiZ_Awake))))) := by
  have hroute : setSpeedF n speed dir s = startSoftBrakeF n s := by
    unfold setSpeedF
    simp only []
    rw [if_pos hz]
  refine ⟨hroute, fun hr => ?_⟩
  rw [hroute] at hr
  obtain ⟨_, _, hcases⟩ := (sb_fw_outcome n).1 s r hinv hr
  rcases hcases with ⟨hact, _⟩ | hhard | hfree
  · exact Or.inl hact
  · exact Or.inr (Or.inl ⟨hhard.1, hhard.2.1⟩)
  · exact Or.inr (Or.inr ⟨hfree.1, hfree.2.1, hfree.2.2.1, hfree.2.2.2.2⟩)

/-- Witness for C3: `setSpeed(0, CW)` on a fresh driver (duty 50 pending)
engages the dither cycle. -/
theorem c3_zero_speed_soft_brake_witness :
    (setSpeedF 1 0 Dir.CW initMotorState = startSoftBrakeF 1 initMotorState) ∧
    (c3exR.soft_active = true ∨
     (c3exR.dutyA = 100 ∧ c3exR.dutyB = 100) ∨
     (c3exR.dutyA = 0 ∧ c3exR.dutyB = 0 ∧ c3exR.soft_active = false ∧
      (initMotorState.use_en = true →
        (c3exR.en_state = true ↔
          initMotorState.beh.freewheel_mode = FreewheelMode.HiZ_Awake)))) :=
  have h := c3_zero_speed_soft_brake 1 0 Dir.CW initMotorState c3exR
    (timerInv_of_none initMotorState rfl) (by decide)
  ⟨h.1, h.2 (by decide)⟩

/-! ## Claim C4: setSoftBrakePwm(0) while dithering -/

/-- C4 counterexample: the claim says `setSoftBrakePwm(0)` while the dither
cycle is active "falls through to `setFreewheel()` and stops the soft-brake
cycle".  On the concrete dithering state reached by `startSoftBrake` with
duty 512, `setSoftBrakePWM(0)` leaves the cycle active and the pending
one-shot untouched: the function only stores the clamped duty and recomputes
the phase durations (HBridgeMotor.cpp lines 129-137); the `level <= 0.001`
fall-through lives in `startSoftBrake`, which it never calls. -/
theorem c4_counterexample :
    c4act.soft_active = true ∧
    (setSoftBrakePWMstate 0 c4act).soft_active = true ∧
    (setSoftBrakePWMstate 0 c4act).timer_armed = c4act.timer_armed ∧
    c4act.timer_armed ≠ none := by
  decide

/-- C4 (amended): `setSoftBrakePwm(0)` while dithering stores duty 0 and
recomputes the phase durations in place (level 0, brake duration 0, coast
duration as recomputed for the current frequency); the dither cycle remains
active with its pending one-shot untouched.  The fall-through to
`setFreewheel` happens only when `startSoftBrake` next runs (e.g. via
`setSpeed(0, _)`). -/
theorem c4_store_and_recompute (s : MotorState) (h : s.soft_active = true) :
    (setSoftBrakePWMstate 0 s).soft_active = true ∧
    (setSoftBrakePWMstate 0 s).timer_armed = s.timer_armed ∧
    (setSoftBrakePWMstate 0 s).soft_brake_pwm = 0 ∧
    (setSoftBrakePWMstate 0 s).soft_level = 0 ∧
    (setSoftBrakePWMstate 0 s).soft_us_brake = 0 ∧
    (setSoftBrakePWMstate 0 s).soft_us_coast = coastUs s.soft_hz 0 := by
  refine ⟨?_, ?_, ?_, ?_, ?_, ?_⟩
  · rw [setPWM_soft_active]
    exact h
  · rw [setPWM_timer]
  · unfold setSoftBrakePWMstate
    simp only []
    split
    · rw [recompute_pwm]
      exact (by decide :
        (MathFns.clamp ((0 : Nat) : Int) 0 kPwmMaxInput).toNat = 0)
    · exact (by decide :
        (MathFns.clamp ((0 : Nat) : Int) 0 kPwmMaxInput).toNat = 0)
  · unfold setSoftBrakePWMstate
    simp only []
    split
    · rw [recompute_level]
      exact (by decide : softLevelOf
        (MathFns.clamp ((0 : Nat) : Int) 0 kPwmMaxInput).toNat = 0)
    · next hcond => exact absurd h hcond
  · unfold setSoftBrakePWMstate
    simp only []
    split
    · show brakeUs s.soft_hz
        (MathFns.clamp ((0 : Nat) : Int) 0 kPwmMaxInput).toNat = 0
      rw [show (MathFns.clamp ((0 : Nat) : Int) 0 kPwmMaxInput).toNat = 0
            from by decide]
      exact brakeUs_zero s.soft_hz
    · next hcond => exact absurd h hcond
  · unfold setSoftBrakePWMstate
    simp only []
    split
    · show coastUs s.soft_hz
        (MathFns.clamp ((0 : Nat) : Int) 0 kPwmMaxInput).toNat =
          coastUs s.soft_hz 0
      rw [show (MathFns.clamp ((0 : Nat) : Int) 0 kPwmMaxInput).toNat = 0
            from by decide]
    · next hcond => exact absurd h hcond

/-- Witness for C4 (amended): applied to the concrete dithering state. -/
theorem c4_store_and_recompute_witness :
    (setSoftBrakePWMstate 0 c4act).soft_active = true ∧
    (setSoftBrakePWMstate 0 c4act).timer_armed = c4act.timer_armed ∧
    (setSoftBrakePWMstate 0 c4act).soft_brake_pwm = 0 ∧
    (setSoftBrakePWMstate 0 c4act).soft_level = 0 ∧
    (setSoftBrakePWMstate 0 c4act).soft_us_brake = 0 ∧
    (setSoftBrakePWMstate 0 c4act).soft_us_coast = coastUs c4act.soft_hz 0 :=
  c4_store_and_recompute c4act (by decide)

/-! ## Claim C5: stop-timer-before-new-pattern ordering -/

/-- C5: each mode-changing call leaves no stale one-shot behind, so no
phase-flip callback can fire after it.  `setSpeed` with nonzero clamped
speed and `setHardBrake` both cancel the one-shot (via `stopSoftBrake`,
which runs before the new output pattern is applied) and leave the cycle
inactive, so `softBrakeFire` is impossible afterwards; after `setFreewheel`
either nothing is armed (so no callback can fire) or — in the `DitherBrake`
sub-mode — the cycle is active and the only pending one-shot is the one the
call itself armed for the freshly computed coast duration.  Stated for
states satisfying the timer/flag coupling `TimerInv`, which every reachable
state satisfies; the in-flight-callback race of the real timer service is
outside this sequential model. -/
theorem c5_stop_timer_before_mode :
    (∀ (n : Nat) (speed : Int) (dir : Dir) (s r : MotorState), TimerInv s →
       MathFns.clamp speed 0 kPwmMaxInput ≠ 0 →
       setSpeedF n speed dir s = some r →
       r.soft_active = false ∧ r.timer_armed = none ∧
       softBrakeFire r = none) ∧
    (∀ s : MotorState, TimerInv s →
       (setHardBrakeState s).soft_active = false ∧
       (setHardBrakeState s).timer_armed = none ∧
       softBrakeFire (setHardBrakeState s) = none) ∧
    (∀ (n : Nat) (s r : MotorState), TimerInv s →
       setFreewheelF n s = some r →
       (r.timer_armed = none ∧ softBrakeFire r = none) ∨
       (r.soft_active = true ∧ r.timer_armed = some (schedCoastVal r))) := by
  refine ⟨?_, ?_, ?_⟩
  · intro n speed dir s r hinv hnz hr
    unfold setSpeedF at hr
    simp only [] at hr
    rw [if_neg hnz] at hr
    have htimer : (stopSoftBrake s).timer_armed = none :=
      stopSoftBrake_timer_none s hinv
    cases dir with
    | CW =>
      injection hr with hx
      subst hx
      refine ⟨?_, ?_, ?_⟩
      · rw [writeAB_soft_active, setEnable_soft_active,
            stopSoftBrake_soft_active]
      · rw [writeAB_timer, setEnable_timer, htimer]
      · exact softBrakeFire_none _ (by
          rw [writeAB_timer, setEnable_timer, htimer])
    | CCW =>
      injection hr with hx
      subst hx
      refine ⟨?_, ?_, ?_⟩
      · rw [writeAB_soft_active, setEnable_soft_active,
            stopSoftBrake_soft_active]
      · rw [writeAB_timer, setEnable_timer, htimer]
      · exact softBrakeFire_none _ (by
          rw [writeAB_timer, setEnable_timer, htimer])
  · intro s hinv
    have htimer : (stopSoftBrake s).timer_armed = none :=
      stopSoftBrake_timer_none s hinv
    refine ⟨?_, ?_, ?_⟩
    · unfold setHardBrakeState
      rw [writeAB_soft_active, setEnable_soft_active,
          stopSoftBrake_soft_active]
    · unfold setHardBrakeState
      rw [writeAB_timer, setEnable_timer, htimer]
    · exact softBrakeFire_none _ (by
        unfold setHardBrakeState
        rw [writeAB_timer, setEnable_timer, htimer])
  · intro n s r hinv hr
    obtain ⟨_, _, hcases⟩ := (sb_fw_outcome n).2 s r hinv hr
    rcases hcases with hact | hhard | hfree
    · exact Or.inr ⟨hact.1, hact.2.2.2.2⟩
    · exact Or.inl ⟨hhard.2.2.2.1, softBrakeFire_none r hhard.2.2.2.1⟩
    · exact Or.inl ⟨hfree.2.2.2.1, softBrakeFire_none r hfree.2.2.2.1⟩

/-- Witness for C5: a fresh driver driven at speed 5 (drive mode), hard
braked, and set to freewheel (`HiZ` profile). -/
theorem c5_stop_timer_before_mode_witness :
    (c5driveR.soft_active = false ∧ c5driveR.timer_armed = none ∧
     softBrakeFire c5driveR = none) ∧
    ((setHardBrakeState initMotorState).soft_active = false ∧
     (setHardBrakeState initMotorState).timer_armed = none ∧
     softBrakeFire (setHardBrakeState initMotorState) = none) ∧
    ((c5fwR.timer_armed = none ∧ softBrakeFire c5fwR = none) ∨
     (c5fwR.soft_active = true ∧
      c5fwR.timer_armed = some (schedCoastVal c5fwR))) :=
  ⟨c5_stop_timer_before_mode.1 1 5 Dir.CW initMotorState c5driveR
     (timerInv_of_none initMotorState rfl) (by decide) (by decide),
   c5_stop_timer_before_mode.2.1 initMotorState
     (timerInv_of_none initMotorState rfl),
   c5_stop_timer_before_mode.2.2 1 initMotorState c5fwR
     (timerInv_of_none initMotorState rfl) (by decide)⟩

/-! ## Claim C6: drive duty monotone, exactly one output driven -/

/-- C6: in drive mode (nonzero clamped speed) the written duty
`clamp(speed) * percent_per_count_` is monotone non-decreasing in the
clamped speed, the driven output carries exactly that duty with the other
at zero, and exactly one of the two outputs is nonzero. -/
theorem c6_drive_monotone_single (n : Nat) (speed speed2 : Int) (dir : Dir)
    (s r : MotorState)
    (hnz : MathFns.clamp speed 0 kPwmMaxInput ≠ 0)
    (hr : setSpeedF n speed dir s = some r) :
    (MathFns.clamp speed2 0 kPwmMaxInput ≤ MathFns.clamp speed 0 kPwmMaxInput →
       driveDuty speed2 ≤ driveDuty speed) ∧
    ((r.dutyA = driveDuty speed ∧ r.dutyB = 0) ∨
     (r.dutyA = 0 ∧ r.dutyB = driveDuty speed)) ∧
    ((r.dutyA ≠ 0 ∧ r.dutyB = 0) ∨ (r.dutyA = 0 ∧ r.dutyB ≠ 0)) := by
  have hppc : (0 : ℚ) < percentPerCount := by
    unfold percentPerCount kPwmMaxInput kBitRes
    norm_num
  have hc0 : (0 : Int) ≤ MathFns.clamp speed 0 kPwmMaxInput :=
    MathFns.le_clamp speed 0 kPwmMaxInput (by decide)
  have hcpos : (0 : Int) < MathFns.clamp speed 0 kPwmMaxInput :=
    lt_of_le_of_ne hc0 (Ne.symm hnz)
  have hdpos : (0 : ℚ) < driveDuty speed := by
    unfold driveDuty
    exact mul_pos (by exact_mod_cast hcpos) hppc
  refine ⟨?_, ?_⟩
  · intro hle
    unfold driveDuty
    exact mul_le_mul_of_nonneg_right (by exact_mod_cast hle) (le_of_lt hppc)
  · unfold setSpeedF at hr
    simp only [] at hr
    rw [if_neg hnz] at hr
    cases dir with
    | CW =>
      injection hr with hx
      subst hx
      exact ⟨Or.inl ⟨rfl, rfl⟩, Or.inl ⟨ne_of_gt hdpos, rfl⟩⟩
    | CCW =>
      injection hr with hx
      subst hx
      exact ⟨Or.inr ⟨rfl, rfl⟩, Or.inr ⟨rfl, ne_of_gt hdpos⟩⟩

/-- Witness for C6: `setSpeed(2000, CW)` clamps to 1023 and drives output A
at 100% with output B at 0% (spec scenario 6), and the duty at clamped 500
is no larger. -/
theorem c6_drive_monotone_single_witness :
    (MathFns.clamp 500 0 kPwmMaxInput ≤ MathFns.clamp 2000 0 kPwmMaxInput →
       driveDuty 500 ≤ driveDuty 2000) ∧
    ((c6exR.dutyA = driveDuty 2000 ∧ c6exR.dutyB = 0) ∨
     (c6exR.dutyA = 0 ∧ c6exR.dutyB = driveDuty 2000)) ∧
    ((c6exR.dutyA ≠ 0 ∧ c6exR.dutyB = 0) ∨
     (c6exR.dutyA = 0 ∧ c6exR.dutyB ≠ 0)) :=
  c6_drive_monotone_single 1 2000 500 Dir.CW initMotorState c6exR
    (by decide) (by decide)

/-! ## Claim C10: termination of the setFreewheel/startSoftBrake recursion -/

/-- The mutual recursion loops forever on the fixpoint state: from `c10fix`
(requested duty 0, `DitherBrake` mode with `dither_pwm = 0`), neither call
ever reaches a base case, whatever the fuel. -/
theorem c10_loop (n : Nat) :
    startSoftBrakeF n c10fix = none ∧ setFreewheelF n c10fix = none := by
  induction n with
  | zero => exact ⟨rfl, rfl⟩
  | succ n ih =>
    refine ⟨?_, ?_⟩
    · have h : startSoftBrakeF (n + 1) c10fix = setFreewheelF n c10fix := rfl
      rw [h]
      exact ih.2
    · have h : setFreewheelF (n + 1) c10fix = startSoftBrakeF n c10fix := rfl
      rw [h]
      exact ih.1

/-- C10: the claim that `setFreewheel`/`startSoftBrake` always reach a base
case is false: with the in-range behavior configuration
`freewheel_mode = DitherBrake`, `soft_brake_hz = 300`, `dither_pwm = 0`,
`setFreewheel()` recurses forever — `startSoftBrake` computes
`level = 0 <= 0.001` and falls back to `setFreewheel()`, which re-enters the
`DitherBrake` branch with the same duty.  The fueled embedding returns
`none` at every fuel (the same holds for any `dither_pwm <= 1`, since
`1/1023 <= 0.001`). -/
theorem c10_nontermination :
    ¬ ∃ n : Nat, (setFreewheelF n c10bad).isSome = true := by
  rintro ⟨n, hn⟩
  have hp : ∀ m : Nat,
      startSoftBrakeF m { c10bad with soft_brake_pwm := 0 } = none := by
    intro m
    match m with
    | 0 => rfl
    | m + 1 =>
      have h1 : startSoftBrakeF (m + 1) { c10bad with soft_brake_pwm := 0 } =
          setFreewheelF m c10fix := rfl
      rw [h1]
      exact (c10_loop m).2
  have h : ∀ m : Nat, setFreewheelF m c10bad = none := by
    intro m
    match m with
    | 0 => rfl
    | m + 1 =>
      have h1 : setFreewheelF (m + 1) c10bad =
          startSoftBrakeF m { c10bad with soft_brake_pwm := 0 } := rfl
      rw [h1]
      exact hp m
  rw [h n] at hn
  exact Bool.noConfusion hn
